import Mathlib

/-!
Verification of the RobHoot quiz server (`src/server.js`).

The session state machine, scorer, and protocol handlers are shallowly
embedded as pure Lean functions.  JavaScript numbers that only ever hold
integers are modelled as `Int`/`Nat`; the one fractional computation
(`Math.round((answerTime / timeLimit) * 1000)`) is modelled exactly over `ℚ`
with `Math.round` as floor of `x + 1/2` (JS rounds halves toward +∞).
Stateful handlers become functions `GameState → GameState × List OutMsg`,
where `OutMsg` records every websocket send the handler performs.
-/

namespace RobHoot

/-- Session phases: `game.state` in `server.js` line 83. -/
inductive Phase where
  | idle
  | lobby
  | question
  | reveal
  | leaderboard
deriving DecidableEq, Repr

/-- A question record as produced by `loadQuestions` (server.js lines 50-56). -/
structure Question where
  question : String
  qtype : String
  options : List String
  correct : Int
  timeLimit : Nat
deriving DecidableEq, Repr, Inhabited

/-- A player record (server.js lines 336-343).  The live websocket handle is
not modelled; `answer`/`answerTime` are `null` (`none`) until the player
answers the current question. -/
structure Player where
  name : String
  score : Int
  answer : Option Int
  answerTime : Option Int
  lastPoints : Int
deriving DecidableEq, Repr

/-- The global `game` object (server.js lines 81-91).  `players` is a JS
`Map`, which preserves insertion order, so it is modelled as an ordered
association list with unique keys.  `timer` is modelled by whether an
interval is currently scheduled; `pin = null` is modelled as `""`. -/
structure GameState where
  pin : String
  state : Phase
  players : List (Nat × Player)
  questions : List Question
  currentQuestion : Int
  timerRunning : Bool
  timeRemaining : Int
  answerCount : Nat
  hostConnected : Bool
deriving DecidableEq, Repr

/-- Every websocket send the server performs, tagged by destination. -/
inductive OutMsg where
  | errorToConn (message : String)
  | errorToHost (message : String)
  | joinedToConn (name : String)
  | answerReceived (pid : Nat)
  | hostDisconnectedTo (pid : Nat)
  | lobbyToHost (pin : String) (players : List String)
  | playerJoinedToHost (name : String) (count : Nat) (players : List String)
  | playerLeftToHost (name : String) (count : Nat) (players : List String)
  | answerCountToHost (count : Nat) (total : Nat)
  | questionBroadcast (index : Int) (total : Nat) (question : String)
      (qtype : String) (options : List String) (timeLimit : Nat)
  | timerBroadcast (remaining : Int)
  | resultsToHost (correct : Int) (distribution : List Nat)
      (options : List String) (leaderboard : List (String × Int)) (isLast : Bool)
  | resultToPlayer (pid : Nat) (correct : Int) (yourAnswer : Option Int)
      (points : Int) (totalScore : Int) (isLast : Bool)
  | leaderboardBroadcast (leaderboard : List (String × Int))
deriving DecidableEq, Repr

/-- Host protocol messages (server.js lines 275-289). -/
inductive HostMsg where
  | start
  | next
  | reset
deriving DecidableEq, Repr

/-- JS `Math.round` for the values arising here: round half toward +∞. -/
def jsRound (x : ℚ) : Int := ⌊x + 1 / 2⌋

/-- `Map.get`: first binding of the key (keys are unique in every reachable
state, ids coming from a monotonic counter). -/
def lookupAssoc : List (Nat × Player) → Nat → Option Player
  | [], _ => none
  | (i, p) :: rest, j => if i = j then some p else lookupAssoc rest j

/-- `Map.set`: replace the binding in place if the key is present (JS `Map`
keeps the original insertion position), else append. -/
def updateAssoc (j : Nat) (p : Player) : List (Nat × Player) → List (Nat × Player)
  | [] => [(j, p)]
  | (i, q) :: rest => if i = j then (j, p) :: rest else (i, q) :: updateAssoc j p rest

/-- `Map.delete`: remove the binding if present. -/
def eraseAssoc (j : Nat) : List (Nat × Player) → List (Nat × Player)
  | [] => []
  | (i, q) :: rest => if i = j then rest else (i, q) :: eraseAssoc j rest

/-- `game.questions[game.currentQuestion]` (only read while the cursor is in
range). -/
def currentQ (s : GameState) : Question :=
  s.questions.getD s.currentQuestion.toNat default

/-- The sort relation of `getLeaderboard`'s comparator
`(a, b) => b.score - a.score`: `a` may precede `b` iff `b.score ≤ a.score`. -/
def lbRel (a b : String × Int) : Prop := b.2 ≤ a.2

instance : DecidableRel lbRel := fun a b => inferInstanceAs (Decidable (b.2 ≤ a.2))

instance : IsTotal (String × Int) lbRel := ⟨fun a b => le_total b.2 a.2⟩

instance : IsTrans (String × Int) lbRel := ⟨fun _ _ _ h1 h2 => le_trans h2 h1⟩

/-- `getLeaderboard` (server.js lines 132-136): project every player to
`(name, score)` and sort by score descending.  `Array.prototype.sort` is
stable (ECMA-262), which insertion sort over a total preorder realises. -/
def getLeaderboard (players : List (Nat × Player)) : List (String × Int) :=
  List.insertionSort lbRel (players.map fun ip => (ip.2.name, ip.2.score))

/-- Scoring of one player at reveal (server.js lines 190-203). -/
def scorePlayer (q : Question) (p : Player) : Player :=
  match p.answer with
  | none => { p with lastPoints := 0 }
  | some a =>
    if a = q.correct then
      let pts : Int := 1000 + jsRound ((p.answerTime.getD 0 : ℚ) / (q.timeLimit : ℚ) * 1000)
      { p with lastPoints := pts, score := p.score + pts }
    else
      { p with lastPoints := 0 }

/-- `distribution[p.answer - 1]++` (server.js line 192). -/
def distAdd (dist : List Nat) (a : Int) : List Nat :=
  dist.set (a - 1).toNat (dist.getD (a - 1).toNat 0 + 1)

/-- The per-option answer distribution computed at reveal
(server.js lines 189-192). -/
def answerDistribution (q : Question) (players : List (Nat × Player)) : List Nat :=
  players.foldl
    (fun d ip =>
      match ip.2.answer with
      | some a => distAdd d a
      | none => d)
    (List.replicate q.options.length 0)

/-- `revealAnswer` (server.js lines 178-226): guard on phase, cancel the
timer, move to `reveal`, score every player, then send results to the host
and an individual result to every player. -/
def revealAnswer (s : GameState) : GameState × List OutMsg :=
  if s.state ≠ Phase.question then (s, [])
  else
    let s1 : GameState := { s with timerRunning := false, state := Phase.reveal }
    let q := currentQ s1
    let dist := answerDistribution q s1.players
    let s2 : GameState :=
      { s1 with players := s1.players.map fun ip => (ip.1, scorePlayer q ip.2) }
    let isLast : Bool := (s2.questions.length : Int) - 1 ≤ s2.currentQuestion
    (s2,
      OutMsg.resultsToHost q.correct dist q.options
          ((getLeaderboard s2.players).take 5) isLast ::
        s2.players.map fun ip =>
          OutMsg.resultToPlayer ip.1 q.correct ip.2.answer ip.2.lastPoints
            ip.2.score isLast)

/-- `endGame` (server.js lines 228-232). -/
def endGame (s : GameState) : GameState × List OutMsg :=
  let s' : GameState := { s with state := Phase.leaderboard }
  (s', [OutMsg.leaderboardBroadcast (getLeaderboard s'.players)])

/-- `startQuestion` (server.js lines 138-176): advance the cursor; past the
end of the bank, end the game; otherwise enter the `question` phase, clear
per-question player state, broadcast the question and start the countdown. -/
def startQuestion (s : GameState) : GameState × List OutMsg :=
  let s1 : GameState := { s with currentQuestion := s.currentQuestion + 1 }
  if (s1.questions.length : Int) ≤ s1.currentQuestion then endGame s1
  else
    let q := currentQ s1
    let s2 : GameState :=
      { s1 with
        state := Phase.question
        answerCount := 0
        timeRemaining := (q.timeLimit : Int)
        players := s1.players.map fun ip =>
          (ip.1, { ip.2 with answer := none, answerTime := none })
        timerRunning := true }
    (s2,
      [OutMsg.questionBroadcast s2.currentQuestion s2.questions.length
        q.question q.qtype q.options q.timeLimit])

/-- One firing of the countdown interval (server.js lines 167-175). -/
def timerTick (s : GameState) : GameState × List OutMsg :=
  let s1 : GameState := { s with timeRemaining := s.timeRemaining - 1 }
  if s1.timeRemaining ≤ 0 then
    let s2 : GameState := { s1 with timerRunning := false }
    let r := revealAnswer s2
    (r.1, OutMsg.timerBroadcast s1.timeRemaining :: r.2)
  else
    (s1, [OutMsg.timerBroadcast s1.timeRemaining])

/-- `resetGame` (server.js lines 93-112).  `rand` is the `Math.random()`
draw in `[0, 1)`; `newQs` is the value of the module-level `questions`
after the reload attempt (reload failure keeps the previous snapshot). -/
def resetGame (rand : ℚ) (newQs : List Question) (s : GameState) : GameState :=
  { s with
    timerRunning := false
    pin := toString (⌊(1000 : ℚ) + rand * 9000⌋ : Int)
    state := Phase.lobby
    players := []
    questions := newQs
    currentQuestion := -1
    timeRemaining := 0
    answerCount := 0 }

/-- The initial `game` object (server.js lines 81-91). -/
def initialGame (qs : List Question) : GameState :=
  { pin := ""
    state := Phase.idle
    players := []
    questions := qs
    currentQuestion := -1
    timerRunning := false
    timeRemaining := 0
    answerCount := 0
    hostConnected := false }

/-- `handleHost` connection setup (server.js lines 260-269): notify the
existing players that the host link was lost, register the new host
connection, reset the game, and send the new lobby to the host. -/
def handleHostConnect (rand : ℚ) (newQs : List Question) (s : GameState) :
    GameState × List OutMsg :=
  let notify := s.players.map fun ip => OutMsg.hostDisconnectedTo ip.1
  let s1 : GameState := { s with hostConnected := true }
  let s2 := resetGame rand newQs s1
  (s2, notify ++ [OutMsg.lobbyToHost s2.pin (s2.players.map fun ip => ip.2.name)])

/-- The host message handler (server.js lines 271-290). -/
def handleHostMsg (s : GameState) (m : HostMsg) (rand : ℚ) (newQs : List Question) :
    GameState × List OutMsg :=
  match m with
  | HostMsg.start =>
    if s.state = Phase.lobby then
      if s.players.length = 0 then (s, [OutMsg.errorToHost "Need at least 1 player"])
      else startQuestion s
    else (s, [])
  | HostMsg.next =>
    if s.state = Phase.reveal then startQuestion s else (s, [])
  | HostMsg.reset =>
    let s' := resetGame rand newQs s
    (s', [OutMsg.lobbyToHost s'.pin []])

/-- `String.prototype.trim`: strip leading and trailing whitespace
(ASCII whitespace; JS also strips further Unicode space characters). -/
def jsTrim (s : String) : String :=
  ⟨((s.data.dropWhile Char.isWhitespace).reverse.dropWhile Char.isWhitespace).reverse⟩

/-- `String.prototype.slice(0, n)`: the first `n` characters (JS counts
UTF-16 code units; identical for the basic-plane text handled here). -/
def jsSlice (s : String) (n : Nat) : String := ⟨s.data.take n⟩

/-- `String.prototype.toLowerCase` restricted to the ASCII range. -/
def jsLower (s : String) : String := ⟨s.data.map Char.toLower⟩

/-- The duplicate-name scan of the join handler (server.js lines 328-333). -/
def nameTaken (players : List (Nat × Player)) (n : String) : Bool :=
  players.any fun ip => jsLower ip.2.name == jsLower n

/-- A freshly joined player record (server.js lines 336-343). -/
def mkNewPlayer (n : String) : Player :=
  { name := n, score := 0, answer := none, answerTime := none, lastPoints := 0 }

/-- The `join` branch of the player message handler (server.js lines
307-351).  `pin`/`name` are the (possibly missing) fields of `msg.data`;
`playerId` is the handler's closure variable and `newId` the current value
of the `nextPlayerId` counter.  Returns the new state, the sends performed,
and the updated `playerId`. -/
def handleJoin (s : GameState) (playerId : Option Nat) (newId : Nat)
    (pin name : Option String) : GameState × List OutMsg × Option Nat :=
  let pinV := pin.getD ""
  let nameV := name.getD ""
  if pinV = "" ∨ nameV = "" then
    (s, [OutMsg.errorToConn "PIN and name required"], playerId)
  else if pinV ≠ s.pin then
    (s, [OutMsg.errorToConn "Invalid PIN"], playerId)
  else if s.state ≠ Phase.lobby then
    (s, [OutMsg.errorToConn "Game already in progress"], playerId)
  else
    let trimmedName := jsSlice (jsTrim nameV) 20
    if trimmedName = "" then
      (s, [OutMsg.errorToConn "Name cannot be empty"], playerId)
    else if nameTaken s.players trimmedName then
      (s, [OutMsg.errorToConn "Name already taken"], playerId)
    else
      let players' := updateAssoc newId (mkNewPlayer trimmedName) s.players
      ({ s with players := players' },
        [OutMsg.joinedToConn trimmedName,
          OutMsg.playerJoinedToHost trimmedName players'.length
            (players'.map fun ip => ip.2.name)],
        some newId)

/-- The `answer` branch of the player message handler (server.js lines
353-376).  `rawAnswer` is `parseInt(msg.data?.answer, 10)` with `NaN`
modelled as `none`. -/
def handleAnswer (s : GameState) (playerId : Option Nat) (rawAnswer : Option Int) :
    GameState × List OutMsg :=
  match playerId with
  | none => (s, [])
  | some pid =>
    if s.state ≠ Phase.question then (s, [])
    else
      match lookupAssoc s.players pid with
      | none => (s, [])
      | some player =>
        if player.answer ≠ none then (s, [])
        else
          match rawAnswer with
          | none => (s, [])
          | some a =>
            if a < 1 ∨ ((currentQ s).options.length : Int) < a then (s, [])
            else
              let player' : Player :=
                { player with answer := some a, answerTime := some s.timeRemaining }
              let s' : GameState :=
                { s with
                  players := updateAssoc pid player' s.players
                  answerCount := s.answerCount + 1 }
              let msgs := [OutMsg.answerReceived pid,
                OutMsg.answerCountToHost s'.answerCount s'.players.length]
              if s'.players.length ≤ s'.answerCount then
                let r := revealAnswer s'
                (r.1, msgs ++ r.2)
              else (s', msgs)

/-- The guard of the `answer` branch: exactly the conditions under which the
handler records the answer. -/
def answerAccepted (s : GameState) (playerId : Option Nat) (rawAnswer : Option Int) :
    Bool :=
  match playerId, rawAnswer with
  | some pid, some a =>
    decide (s.state = Phase.question) &&
      (match lookupAssoc s.players pid with
       | some player => decide (player.answer = none)
       | none => false) &&
      decide (1 ≤ a) && decide (a ≤ ((currentQ s).options.length : Int))
  | _, _ => false

/-- The player disconnect handler (server.js lines 379-392). -/
def handlePlayerClose (s : GameState) (playerId : Option Nat) :
    GameState × List OutMsg :=
  match playerId with
  | none => (s, [])
  | some pid =>
    if s.state = Phase.lobby then
      let found := lookupAssoc s.players pid
      let s' : GameState := { s with players := eraseAssoc pid s.players }
      match found with
      | some p =>
        (s', [OutMsg.playerLeftToHost p.name s'.players.length
          (s'.players.map fun ip => ip.2.name)])
      | none => (s', [])
    else (s, [])

/-! Concrete sample states used to instantiate the theorems below. -/

/-- A four-option multiple-choice question whose correct option is 2. -/
def sampleQuestion : Question :=
  { question := "2+2?"
    qtype := "mc"
    options := ["3", "4", "5", "6"]
    correct := 2
    timeLimit := 20 }

/-- A player who answered option 2 with 10 seconds remaining. -/
def samplePlayerAnswered : Player :=
  { name := "Bea", score := 100, answer := some 2, answerTime := some 10, lastPoints := 0 }

/-- A session sitting in the `reveal` phase after its only question. -/
def sampleRevealState : GameState :=
  { pin := "1234"
    state := Phase.reveal
    players := [(1, mkNewPlayer "Ann"), (2, samplePlayerAnswered)]
    questions := [sampleQuestion]
    currentQuestion := 0
    timerRunning := false
    timeRemaining := 0
    answerCount := 1
    hostConnected := true }

/-- A session in the middle of its only question: player 1 has not answered,
player 2 has. -/
def sampleQuestionState : GameState :=
  { pin := "1234"
    state := Phase.question
    players := [(1, mkNewPlayer "Ann"), (2, samplePlayerAnswered)]
    questions := [sampleQuestion]
    currentQuestion := 0
    timerRunning := true
    timeRemaining := 10
    answerCount := 1
    hostConnected := true }

/-- A lobby with one joined player. -/
def sampleLobbyState : GameState :=
  { pin := "1234"
    state := Phase.lobby
    players := [(1, mkNewPlayer "Zed")]
    questions := [sampleQuestion]
    currentQuestion := -1
    timerRunning := false
    timeRemaining := 0
    answerCount := 0
    hostConnected := true }

/-! Claim theorems. -/

/-- Outside the `question` phase the reveal transition does nothing. -/
theorem revealAnswer_noop (s : GameState) (h : s.state ≠ Phase.question) :
    revealAnswer s = (s, []) := by
  simp [revealAnswer, h]

/-- Claim C2: the transition into reveal is idempotent.  Once the session
phase is no longer `question` (for example it has already moved to `reveal`),
any further invocation of the reveal transition, whether from a late timer
tick or a delayed all-players-answered check, is a no-op: it re-runs no
scoring, mutates no session state and sends no message. -/
theorem reveal_idempotent (s : GameState) (h : s.state ≠ Phase.question) :
    revealAnswer s = (s, []) :=
  revealAnswer_noop s h

/-- Witness for C2 at a concrete `reveal`-phase state. -/
theorem reveal_idempotent_witness :
    revealAnswer sampleRevealState = (sampleRevealState, []) :=
  reveal_idempotent sampleRevealState (by decide)

/-- Claim C8: a player disconnect removes the player only while the phase is
`lobby`; a disconnect during `question`, `reveal` or `leaderboard` leaves the
player record, score, recorded answer and all other session state unchanged
(the whole handler is a no-op), while a disconnect in the lobby deletes the
player's entry. -/
theorem disconnect_only_in_lobby (s : GameState) (pid : Nat) :
    (s.state ≠ Phase.lobby → handlePlayerClose s (some pid) = (s, [])) ∧
    (s.state = Phase.lobby →
      (handlePlayerClose s (some pid)).1.players = eraseAssoc pid s.players) := by
  constructor
  · intro h
    simp [handlePlayerClose, h]
  · intro h
    simp only [handlePlayerClose, if_pos h]
    cases lookupAssoc s.players pid <;> rfl

/-- Witness for C8: a mid-question disconnect changes nothing; a lobby
disconnect removes the player. -/
theorem disconnect_only_in_lobby_witness :
    handlePlayerClose sampleQuestionState (some 2) = (sampleQuestionState, []) ∧
    (handlePlayerClose sampleLobbyState (some 1)).1.players =
      eraseAssoc 1 sampleLobbyState.players :=
  ⟨(disconnect_only_in_lobby sampleQuestionState 2).1 (by decide),
    (disconnect_only_in_lobby sampleLobbyState 1).2 rfl⟩

/-- Claim C7: every reset produces a lobby state whose join code is the
decimal string of an integer in `[1000, 9999]`, with no players, question
cursor `-1`, phase `lobby`, answer count `0`, and the countdown timer
cancelled.  `rand` is the `Math.random()` draw, so `0 ≤ rand < 1`. -/
theorem reset_lobby_invariants (s : GameState) (rand : ℚ) (qs : List Question)
    (h0 : 0 ≤ rand) (h1 : rand < 1) :
    (∃ n : Int, 1000 ≤ n ∧ n ≤ 9999 ∧ (resetGame rand qs s).pin = toString n) ∧
    (resetGame rand qs s).players = [] ∧
    (resetGame rand qs s).currentQuestion = -1 ∧
    (resetGame rand qs s).state = Phase.lobby ∧
    (resetGame rand qs s).answerCount = 0 ∧
    (resetGame rand qs s).timerRunning = false := by
  refine ⟨⟨⌊(1000 : ℚ) + rand * 9000⌋, ?_, ?_, rfl⟩, rfl, rfl, rfl, rfl, rfl⟩
  · rw [Int.le_floor]
    push_cast
    nlinarith
  · have h2 : (⌊(1000 : ℚ) + rand * 9000⌋ : Int) < 10000 := by
      rw [Int.floor_lt]
      push_cast
      nlinarith
    omega

/-- Witness for C7 at a concrete state and draw. -/
theorem reset_lobby_invariants_witness :
    (∃ n : Int, 1000 ≤ n ∧ n ≤ 9999 ∧
      (resetGame 0 [] sampleQuestionState).pin = toString n) ∧
    (resetGame 0 [] sampleQuestionState).players = [] ∧
    (resetGame 0 [] sampleQuestionState).currentQuestion = -1 ∧
    (resetGame 0 [] sampleQuestionState).state = Phase.lobby ∧
    (resetGame 0 [] sampleQuestionState).answerCount = 0 ∧
    (resetGame 0 [] sampleQuestionState).timerRunning = false :=
  reset_lobby_invariants sampleQuestionState 0 [] (by norm_num) (by norm_num)

/-- Claim C10: whenever a new host connection is established, in any phase,
the session is reset: every currently joined player is first sent a
`host-disconnected` message, then all players and scores are cleared, a
fresh join code is generated from the random draw, and the phase becomes
`lobby`. -/
theorem host_connect_resets (s : GameState) (rand : ℚ) (qs : List Question) :
    handleHostConnect rand qs s =
      (resetGame rand qs { s with hostConnected := true },
        (s.players.map fun ip => OutMsg.hostDisconnectedTo ip.1) ++
          [OutMsg.lobbyToHost (toString (⌊(1000 : ℚ) + rand * 9000⌋ : Int)) []]) ∧
    (handleHostConnect rand qs s).1.players = [] ∧
    (handleHostConnect rand qs s).1.state = Phase.lobby ∧
    (handleHostConnect rand qs s).1.pin =
      toString (⌊(1000 : ℚ) + rand * 9000⌋ : Int) := by
  refine ⟨?_, rfl, rfl, rfl⟩
  simp [handleHostConnect, resetGame]

/-- Claim C6: when the host issues `next` in phase `reveal` and advancing the
cursor moves it past the end of the question bank, the session transitions
directly to `leaderboard`, broadcasting the final standings; from that state
a further `next` and the reveal transition are both no-ops, so the session
never re-enters `question` or `reveal`. -/
theorem next_past_end (s : GameState) (rand : ℚ) (qs : List Question)
    (hst : s.state = Phase.reveal)
    (hend : (s.questions.length : Int) ≤ s.currentQuestion + 1) :
    handleHostMsg s HostMsg.next rand qs =
      ({ s with currentQuestion := s.currentQuestion + 1, state := Phase.leaderboard },
        [OutMsg.leaderboardBroadcast (getLeaderboard s.players)]) ∧
    (∀ rand2 qs2,
      handleHostMsg (handleHostMsg s HostMsg.next rand qs).1 HostMsg.next rand2 qs2 =
        ((handleHostMsg s HostMsg.next rand qs).1, [])) ∧
    revealAnswer (handleHostMsg s HostMsg.next rand qs).1 =
      ((handleHostMsg s HostMsg.next rand qs).1, []) := by
  have h1 : handleHostMsg s HostMsg.next rand qs =
      ({ s with currentQuestion := s.currentQuestion + 1, state := Phase.leaderboard },
        [OutMsg.leaderboardBroadcast (getLeaderboard s.players)]) := by
    simp [handleHostMsg, hst, startQuestion, endGame, hend]
  refine ⟨h1, ?_, ?_⟩
  · intro rand2 qs2
    rw [h1]
    simp [handleHostMsg]
  · rw [h1]
    exact revealAnswer_noop _ (by simp)

/-- Witness for C6: `next` after the last question of a one-question bank
goes straight to the final leaderboard. -/
theorem next_past_end_witness :
    handleHostMsg sampleRevealState HostMsg.next 0 [] =
      ({ sampleRevealState with
          currentQuestion := sampleRevealState.currentQuestion + 1
          state := Phase.leaderboard },
        [OutMsg.leaderboardBroadcast (getLeaderboard sampleRevealState.players)]) :=
  (next_past_end sampleRevealState 0 [] rfl (by decide)).1

/-- A leaderboard row whose fields matter only through `(name, score)`. -/
def namedScore (n : String) (sc : Int) : Player :=
  { name := n, score := sc, answer := none, answerTime := none, lastPoints := 0 }

/-- Inserting into the score-descending order commutes with filtering one
score value: the elements skipped over have strictly larger scores. -/
theorem filter_orderedInsert (v : Int) (x : String × Int) (l : List (String × Int)) :
    (List.orderedInsert lbRel x l).filter (fun y => decide (y.2 = v)) =
      if x.2 = v then x :: l.filter (fun y => decide (y.2 = v))
      else l.filter (fun y => decide (y.2 = v)) := by
  induction l with
  | nil =>
    simp only [List.orderedInsert_nil, List.filter, decide_eq_true_eq]
    split <;> simp_all [List.filter]
  | cons y ys ih =>
    by_cases hxy : lbRel x y
    · rw [List.orderedInsert, if_pos hxy]
      simp only [List.filter, decide_eq_true_eq]
      split <;> split <;> simp_all [List.filter, decide_eq_true_eq]
    · have hlt : x.2 < y.2 := lt_of_not_le hxy
      rw [List.orderedInsert, if_neg hxy]
      simp only [List.filter, decide_eq_true_eq, ih]
      by_cases hy : y.2 = v
      · have hx : ¬x.2 = v := by
          intro hx
          rw [hx, hy] at hlt
          exact lt_irrefl v hlt
        simp [hx, hy]
      · by_cases hx : x.2 = v <;> simp [hx, hy]

/-- The stable sort of `getLeaderboard` keeps the relative order of any
fixed score value. -/
theorem filter_insertionSort (v : Int) (l : List (String × Int)) :
    (List.insertionSort lbRel l).filter (fun y => decide (y.2 = v)) =
      l.filter (fun y => decide (y.2 = v)) := by
  induction l with
  | nil => rfl
  | cons x xs ih =>
    rw [List.insertionSort, filter_orderedInsert]
    simp only [List.filter, decide_eq_true_eq]
    split <;> simp_all

/-- Claim C5: the leaderboard lists all players sorted by total score in
descending order, players with equal scores appearing in their relative join
order (stable sort); and for scores A 300, B 500, C 500 joined in order
A, B, C the leaderboard is exactly B, C, A. -/
theorem leaderboard_sorted_stable :
    (∀ ps : List (Nat × Player),
      List.Pairwise (fun a b : String × Int => b.2 ≤ a.2) (getLeaderboard ps) ∧
      ∀ v : Int,
        (getLeaderboard ps).filter (fun y => decide (y.2 = v)) =
          (ps.map fun ip => (ip.2.name, ip.2.score)).filter
            (fun y => decide (y.2 = v))) ∧
    getLeaderboard
        [(1, namedScore "A" 300), (2, namedScore "B" 500), (3, namedScore "C" 500)] =
      [("B", 500), ("C", 500), ("A", 300)] := by
  refine ⟨fun ps => ⟨?_, fun v => filter_insertionSort v _⟩, by decide⟩
  exact List.sorted_insertionSort lbRel _

/-- Mapping a per-player function over the registry commutes with lookup. -/
theorem lookupAssoc_map (f : Player → Player) (l : List (Nat × Player)) (j : Nat) :
    lookupAssoc (l.map fun ip => (ip.1, f ip.2)) j = (lookupAssoc l j).map f := by
  induction l with
  | nil => rfl
  | cons ip rest ih =>
    by_cases h : ip.1 = j <;> simp [lookupAssoc, h, ih]

/-- `Map.set` then `Map.get`. -/
theorem lookupAssoc_updateAssoc (i j : Nat) (p : Player) (l : List (Nat × Player)) :
    lookupAssoc (updateAssoc i p l) j =
      if i = j then some p else lookupAssoc l j := by
  induction l with
  | nil =>
    by_cases h : i = j <;> simp [updateAssoc, lookupAssoc, h]
  | cons ip rest ih =>
    by_cases hi : ip.1 = i
    · by_cases hj : i = j <;> simp [updateAssoc, lookupAssoc, hi, hj]
    · by_cases hj : ip.1 = j
      · have hij : ¬i = j := fun h => hi (h ▸ hj)
        have hji : ¬j = i := fun h => hij h.symm
        simp [updateAssoc, lookupAssoc, hi, hj, hij, hji]
      · simp [updateAssoc, lookupAssoc, hi, hj, ih]

/-- Scoring never changes a player's recorded answer. -/
theorem scorePlayer_answer (q : Question) (p : Player) :
    (scorePlayer q p).answer = p.answer := by
  cases h : p.answer
  · simp [scorePlayer, h]
  · simp only [scorePlayer, h]
    split <;> rfl

/-- Lookup through the reveal transition: in phase `question` every player
is rescored in place, otherwise nothing changes. -/
theorem revealAnswer_lookup (s : GameState) (j : Nat) :
    lookupAssoc (revealAnswer s).1.players j =
      if s.state = Phase.question then
        (lookupAssoc s.players j).map (scorePlayer (currentQ s))
      else lookupAssoc s.players j := by
  by_cases h : s.state = Phase.question
  · simp only [revealAnswer, h, ne_eq, not_true_eq_false, if_neg, if_pos, ite_false]
    exact lookupAssoc_map (scorePlayer (currentQ s)) s.players j
  · rw [revealAnswer_noop s h, if_neg h]

/-- The reveal transition preserves every player's recorded answer. -/
theorem revealAnswer_answer_preserved (s : GameState) (j : Nat) (p : Player)
    (hj : lookupAssoc s.players j = some p) :
    ∃ p', lookupAssoc (revealAnswer s).1.players j = some p' ∧
      p'.answer = p.answer := by
  rw [revealAnswer_lookup]
  by_cases h : s.state = Phase.question
  · rw [if_pos h, hj]
    exact ⟨_, rfl, scorePlayer_answer _ _⟩
  · rw [if_neg h, hj]
    exact ⟨p, rfl, rfl⟩

/-- Claim C3: an inbound `answer` message mutates session state only when
the phase is `question`, the sender is a joined player who has not yet
answered the current question, and the submitted index parses to an integer
within `[1, len(options)]` of the current question; in every other case the
message leaves all session state unchanged (and sends nothing), and a
player's first recorded answer is never overwritten by a later message. -/
theorem answer_guard (s : GameState) (playerId : Option Nat) (rawAnswer : Option Int) :
    (answerAccepted s playerId rawAnswer = false →
      handleAnswer s playerId rawAnswer = (s, [])) ∧
    (∀ j p, lookupAssoc s.players j = some p → p.answer ≠ none →
      ∃ p', lookupAssoc (handleAnswer s playerId rawAnswer).1.players j = some p' ∧
        p'.answer = p.answer) := by
  cases playerId with
  | none =>
    exact ⟨fun _ => rfl, fun j p hj _ => ⟨p, hj, rfl⟩⟩
  | some pid =>
    by_cases hst : s.state = Phase.question
    case neg =>
      have hres : handleAnswer s (some pid) rawAnswer = (s, []) := by
        simp [handleAnswer, hst]
      exact ⟨fun _ => hres, fun j p hj _ => ⟨p, by rw [hres]; exact hj, rfl⟩⟩
    case pos =>
      cases hlk : lookupAssoc s.players pid with
      | none =>
        have hres : handleAnswer s (some pid) rawAnswer = (s, []) := by
          simp [handleAnswer, hst, hlk]
        exact ⟨fun _ => hres, fun j p hj _ => ⟨p, by rw [hres]; exact hj, rfl⟩⟩
      | some player =>
        by_cases hans : player.answer = none
        case neg =>
          have hres : handleAnswer s (some pid) rawAnswer = (s, []) := by
            simp [handleAnswer, hst, hlk, hans]
          exact ⟨fun _ => hres, fun j p hj _ => ⟨p, by rw [hres]; exact hj, rfl⟩⟩
        case pos =>
          cases rawAnswer with
          | none =>
            have hres : handleAnswer s (some pid) none = (s, []) := by
              simp [handleAnswer, hst, hlk, hans]
            exact ⟨fun _ => hres, fun j p hj _ => ⟨p, by rw [hres]; exact hj, rfl⟩⟩
          | some a =>
            by_cases hrange : a < 1 ∨ ((currentQ s).options.length : Int) < a
            case pos =>
              have hres : handleAnswer s (some pid) (some a) = (s, []) := by
                simp only [handleAnswer, hst]
                simp [hlk, hans, hrange]
              exact ⟨fun _ => hres, fun j p hj _ => ⟨p, by rw [hres]; exact hj, rfl⟩⟩
            case neg =>
              push_neg at hrange
              constructor
              · intro hacc
                exfalso
                rw [answerAccepted] at hacc
                simp [hst, hlk, hans, hrange.1, hrange.2] at hacc
              · intro j p hj hpa
                have hjp : j ≠ pid := by
                  intro h
                  rw [h, hlk] at hj
                  cases hj
                  exact hpa hans
                have hlkup :
                    lookupAssoc
                      (updateAssoc pid
                        { player with answer := some a, answerTime := some s.timeRemaining }
                        s.players) j = some p := by
                  rw [lookupAssoc_updateAssoc]
                  rw [if_neg (fun h => hjp h.symm)]
                  exact hj
                have hred : handleAnswer s (some pid) (some a) =
                    (let player' : Player :=
                      { player with answer := some a, answerTime := some s.timeRemaining }
                    let s' : GameState :=
                      { s with
                        players := updateAssoc pid player' s.players
                        answerCount := s.answerCount + 1 }
                    let msgs := [OutMsg.answerReceived pid,
                      OutMsg.answerCountToHost s'.answerCount s'.players.length]
                    if s'.players.length ≤ s'.answerCount then
                      let r := revealAnswer s'
                      (r.1, msgs ++ r.2)
                    else (s', msgs)) := by
                  simp only [handleAnswer, hst]
                  simp [hlk, hans, not_lt.mpr hrange.1, not_lt.mpr hrange.2]
                rw [hred]
                simp only []
                split
                · exact revealAnswer_answer_preserved _ j p hlkup
                · exact ⟨p, hlkup, rfl⟩

/-- Witness for C3 at a concrete rejected input: an answer sent during the
`reveal` phase is ignored outright. -/
theorem answer_guard_witness :
    handleAnswer sampleRevealState (some 1) (some 1) = (sampleRevealState, []) :=
  (answer_guard sampleRevealState (some 1) (some 1)).1 (by decide)

theorem jsRound_thousand : jsRound 1000 = 1000 := by
  rw [jsRound, Int.floor_eq_iff]
  norm_num

theorem jsRound_zero : jsRound 0 = 0 := by
  rw [jsRound, Int.floor_eq_iff]
  norm_num

/-- Claim C1: at reveal, a player whose recorded answer differs from the
question's correct option index is awarded 0 points, a correct answer is
awarded `1000 + round(1000 * answerTimeRemaining / timeLimit)` where
`answerTimeRemaining` is the countdown value captured when the player
answered; a correct answer at `remaining = timeLimit` scores exactly 2000,
at `remaining = 0` exactly 1000, and a player who never answered scores 0
(total score unchanged). -/
theorem reveal_scoring (s : GameState) (j : Nat) (p : Player)
    (hst : s.state = Phase.question)
    (hL : 0 < (currentQ s).timeLimit)
    (hj : lookupAssoc s.players j = some p) :
    ∃ p', lookupAssoc (revealAnswer s).1.players j = some p' ∧
      (∀ a, p.answer = some a →
        (p'.lastPoints =
          if a = (currentQ s).correct then
            1000 + jsRound (1000 * (p.answerTime.getD 0 : ℚ) /
              ((currentQ s).timeLimit : ℚ))
          else 0) ∧
        p'.score = p.score + p'.lastPoints) ∧
      (p.answer = none → p'.lastPoints = 0 ∧ p'.score = p.score) ∧
      (p.answer = some (currentQ s).correct →
        p.answerTime = some ((currentQ s).timeLimit : Int) →
        p'.lastPoints = 2000 ∧ p'.score = p.score + 2000) ∧
      (p.answer = some (currentQ s).correct → p.answerTime = some 0 →
        p'.lastPoints = 1000 ∧ p'.score = p.score + 1000) := by
  have hlkup := revealAnswer_lookup s j
  rw [if_pos hst, hj] at hlkup
  have hLne : ((currentQ s).timeLimit : ℚ) ≠ 0 := Nat.cast_ne_zero.mpr hL.ne'
  have hcomm : (p.answerTime.getD 0 : ℚ) / ((currentQ s).timeLimit : ℚ) * 1000 =
      1000 * (p.answerTime.getD 0 : ℚ) / ((currentQ s).timeLimit : ℚ) := by
    ring
  refine ⟨scorePlayer (currentQ s) p, hlkup, ?_, ?_, ?_, ?_⟩
  · intro a ha
    by_cases hc : a = (currentQ s).correct
    · constructor
      · simp only [scorePlayer, ha, if_pos hc]
        rw [hcomm]
      · simp only [scorePlayer, ha, if_pos hc]
    · constructor
      · simp only [scorePlayer, ha, if_neg hc]
      · simp only [scorePlayer, ha, if_neg hc]
        omega
  · intro ha
    simp [scorePlayer, ha]
  · intro ha ht
    simp only [scorePlayer, ha, ht, Option.getD_some, Int.cast_natCast]
    rw [div_self hLne, one_mul, jsRound_thousand]
    norm_num
  · intro ha ht
    simp only [scorePlayer, ha, ht, Option.getD_some, Int.cast_zero]
    rw [zero_div, zero_mul, jsRound_zero]
    norm_num

/-- Witness for C1 at a concrete mid-question state. -/
theorem reveal_scoring_witness :
    ∃ p', lookupAssoc (revealAnswer sampleQuestionState).1.players 2 = some p' ∧
      (∀ a, samplePlayerAnswered.answer = some a →
        (p'.lastPoints =
          if a = (currentQ sampleQuestionState).correct then
            1000 + jsRound (1000 * (samplePlayerAnswered.answerTime.getD 0 : ℚ) /
              ((currentQ sampleQuestionState).timeLimit : ℚ))
          else 0) ∧
        p'.score = samplePlayerAnswered.score + p'.lastPoints) ∧
      (samplePlayerAnswered.answer = none →
        p'.lastPoints = 0 ∧ p'.score = samplePlayerAnswered.score) ∧
      (samplePlayerAnswered.answer = some (currentQ sampleQuestionState).correct →
        samplePlayerAnswered.answerTime =
          some ((currentQ sampleQuestionState).timeLimit : Int) →
        p'.lastPoints = 2000 ∧ p'.score = samplePlayerAnswered.score + 2000) ∧
      (samplePlayerAnswered.answer = some (currentQ sampleQuestionState).correct →
        samplePlayerAnswered.answerTime = some 0 →
        p'.lastPoints = 1000 ∧ p'.score = samplePlayerAnswered.score + 1000) :=
  reveal_scoring sampleQuestionState 2 samplePlayerAnswered rfl (by decide) (by decide)

theorem string_length_data (s : String) : s.length = s.data.length := rfl

/-- A string whose trimmed form has more than 20 characters is non-empty,
and so is its 20-character truncation. -/
theorem trim_take_ne_empty (nv : String) (hlen : 20 < (jsTrim nv).length) :
    nv ≠ "" ∧ jsSlice (jsTrim nv) 20 ≠ "" := by
  constructor
  · intro h
    rw [h] at hlen
    exact absurd hlen (by decide)
  · intro h
    have hd : (jsTrim nv).data.take 20 = [] := congrArg String.data h
    rcases List.take_eq_nil_iff.mp hd with h20 | hnil
    · exact absurd h20 (by decide)
    · rw [string_length_data, hnil] at hlen
      exact absurd hlen (by decide)

/-- Claim C9: a `join` whose name is longer than 20 characters after
trimming is not rejected: provided the PIN matches, the phase is `lobby`
and the truncated name is not already taken case-insensitively, the player
is accepted under the first 20 characters of the trimmed name. -/
theorem long_name_truncated (s : GameState) (pid : Option Nat) (newId : Nat)
    (nv : String)
    (hlob : s.state = Phase.lobby) (hpin : s.pin ≠ "")
    (hlen : 20 < (jsTrim nv).length)
    (htaken : nameTaken s.players (jsSlice (jsTrim nv) 20) = false) :
    handleJoin s pid newId (some s.pin) (some nv) =
      ({ s with players :=
          updateAssoc newId (mkNewPlayer (jsSlice (jsTrim nv) 20)) s.players },
        [OutMsg.joinedToConn (jsSlice (jsTrim nv) 20),
          OutMsg.playerJoinedToHost (jsSlice (jsTrim nv) 20)
            (updateAssoc newId (mkNewPlayer (jsSlice (jsTrim nv) 20)) s.players).length
            ((updateAssoc newId (mkNewPlayer (jsSlice (jsTrim nv) 20)) s.players).map
              fun ip => ip.2.name)],
        some newId) := by
  obtain ⟨hnv, htrim⟩ := trim_take_ne_empty nv hlen
  simp [handleJoin, hpin, hnv, hlob, htrim, htaken]

/-- Witness for C9: a 26-letter name is accepted, truncated to its first 20
letters. -/
theorem long_name_truncated_witness :
    handleJoin sampleLobbyState (some 1) 2
        (some sampleLobbyState.pin) (some "abcdefghijklmnopqrstuvwxyz") =
      ({ sampleLobbyState with
          players := updateAssoc 2
            (mkNewPlayer (jsSlice (jsTrim "abcdefghijklmnopqrstuvwxyz") 20))
            sampleLobbyState.players },
        [OutMsg.joinedToConn (jsSlice (jsTrim "abcdefghijklmnopqrstuvwxyz") 20),
          OutMsg.playerJoinedToHost
            (jsSlice (jsTrim "abcdefghijklmnopqrstuvwxyz") 20)
            (updateAssoc 2
              (mkNewPlayer (jsSlice (jsTrim "abcdefghijklmnopqrstuvwxyz") 20))
              sampleLobbyState.players).length
            ((updateAssoc 2
              (mkNewPlayer (jsSlice (jsTrim "abcdefghijklmnopqrstuvwxyz") 20))
              sampleLobbyState.players).map fun ip => ip.2.name)],
        some 2) :=
  long_name_truncated sampleLobbyState (some 1) 2 "abcdefghijklmnopqrstuvwxyz"
    rfl (by decide) (by decide) (by decide)

/-- A lobby with no joined players. -/
def sampleEmptyLobbyState : GameState :=
  { sampleLobbyState with players := [] }

/-- Counterexample to C4 as stated: an out-of-range `answer` (index 99
against a 4-option question) is dropped silently — the offending client
receives no `error` reply (no message is sent at all), contradicting the
claim that every listed validation failure is surfaced as an `error`
reply. -/
theorem validation_counterexample :
    handleAnswer sampleQuestionState (some 1) (some 99) =
      (sampleQuestionState, []) := by
  decide

/-- Claim C4 (amended): validation failures on well-formed `join` and
`start` requests — bad PIN, duplicate name, empty name, game already
running, starting with no players — are surfaced as an `error` reply to the
offending client with session state unchanged; an out-of-range `answer`
also leaves the state unchanged but is silently ignored, with no `error`
reply. -/
theorem validation_error_replies :
    (∀ (s : GameState) (pid : Option Nat) (newId : Nat) (pv nv : String),
      pv ≠ "" → nv ≠ "" → pv ≠ s.pin →
      handleJoin s pid newId (some pv) (some nv) =
        (s, [OutMsg.errorToConn "Invalid PIN"], pid)) ∧
    (∀ (s : GameState) (pid : Option Nat) (newId : Nat) (nv : String),
      s.pin ≠ "" → nv ≠ "" → s.state ≠ Phase.lobby →
      handleJoin s pid newId (some s.pin) (some nv) =
        (s, [OutMsg.errorToConn "Game already in progress"], pid)) ∧
    (∀ (s : GameState) (pid : Option Nat) (newId : Nat) (nv : String),
      s.pin ≠ "" → nv ≠ "" → s.state = Phase.lobby → jsSlice (jsTrim nv) 20 = "" →
      handleJoin s pid newId (some s.pin) (some nv) =
        (s, [OutMsg.errorToConn "Name cannot be empty"], pid)) ∧
    (∀ (s : GameState) (pid : Option Nat) (newId : Nat) (nv : String),
      s.pin ≠ "" → nv ≠ "" → s.state = Phase.lobby → jsSlice (jsTrim nv) 20 ≠ "" →
      nameTaken s.players (jsSlice (jsTrim nv) 20) = true →
      handleJoin s pid newId (some s.pin) (some nv) =
        (s, [OutMsg.errorToConn "Name already taken"], pid)) ∧
    (∀ (s : GameState) (rand : ℚ) (qs : List Question),
      s.state = Phase.lobby → s.players = [] →
      handleHostMsg s HostMsg.start rand qs =
        (s, [OutMsg.errorToHost "Need at least 1 player"])) ∧
    (∀ (s : GameState) (pid : Nat) (a : Int) (p : Player),
      s.state = Phase.question → lookupAssoc s.players pid = some p →
      p.answer = none → ((currentQ s).options.length : Int) < a →
      handleAnswer s (some pid) (some a) = (s, [])) := by
  refine ⟨?_, ?_, ?_, ?_, ?_, ?_⟩
  · intro s pid newId pv nv hp hn hne
    simp [handleJoin, hp, hn, hne]
  · intro s pid newId nv hp hn hst
    simp [handleJoin, hp, hn, hst]
  · intro s pid newId nv hp hn hst hempty
    simp [handleJoin, hp, hn, hst, hempty]
  · intro s pid newId nv hp hn hst hne htaken
    simp [handleJoin, hp, hn, hst, hne, htaken]
  · intro s rand qs hst hempty
    simp [handleHostMsg, hst, hempty]
  · intro s pid a p hst hlk hans hbig
    have hguard : a < 1 ∨ ((currentQ s).options.length : Int) < a := Or.inr hbig
    simp [handleAnswer, hst, hlk, hans, hguard]

/-- Witness for C4 (amended), each failure mode at a concrete input. -/
theorem validation_error_replies_witness :
    handleJoin sampleLobbyState none 5 (some "9999") (some "Bob") =
      (sampleLobbyState, [OutMsg.errorToConn "Invalid PIN"], none) ∧
    handleJoin sampleQuestionState none 5 (some sampleQuestionState.pin) (some "Bob") =
      (sampleQuestionState, [OutMsg.errorToConn "Game already in progress"], none) ∧
    handleJoin sampleLobbyState none 5 (some sampleLobbyState.pin) (some "   ") =
      (sampleLobbyState, [OutMsg.errorToConn "Name cannot be empty"], none) ∧
    handleJoin sampleLobbyState none 5 (some sampleLobbyState.pin) (some "zed") =
      (sampleLobbyState, [OutMsg.errorToConn "Name already taken"], none) ∧
    handleHostMsg sampleEmptyLobbyState HostMsg.start 0 [] =
      (sampleEmptyLobbyState, [OutMsg.errorToHost "Need at least 1 player"]) ∧
    handleAnswer sampleQuestionState (some 1) (some 99) = (sampleQuestionState, []) :=
  ⟨validation_error_replies.1 sampleLobbyState none 5 "9999" "Bob"
      (by decide) (by decide) (by decide),
    validation_error_replies.2.1 sampleQuestionState none 5 "Bob"
      (by decide) (by decide) (by decide),
    validation_error_replies.2.2.1 sampleLobbyState none 5 "   "
      (by decide) (by decide) rfl (by decide),
    validation_error_replies.2.2.2.1 sampleLobbyState none 5 "zed"
      (by decide) (by decide) rfl (by decide) (by decide),
    validation_error_replies.2.2.2.2.1 sampleEmptyLobbyState 0 [] rfl rfl,
    validation_error_replies.2.2.2.2.2 sampleQuestionState 1 99 (mkNewPlayer "Ann")
      rfl (by decide) rfl (by decide)⟩

end RobHoot
